import Mathlib

/-!
Verification of the `compyle` partial-evaluation core.

Shallow embedding of the repository's core modules:

* `transpyle.py` — the `Expression` interface, `Names`, and `Transpylation`
  (the compiled artifact with its lazily initialised `_code` field);
* `variables.py` — `Reference` and the `value_expression` registry;
* `numbers.py` — `Integer`, `Fraction`, `PyInteger` (an `int` subclass whose
  true division is exact), `PyFraction` (Python's `fractions.Fraction`,
  kept normalised, modelled by `ℚ`);
* `operators.py` — `OperatorBinary` with its constant-folding `specialize`;
* `interpret.py` — the `Assign`/`Evaluate` instruction loop.

Modelling conventions:

* The four expression variants form one inductive type `Expression`; the
  grammar's operator symbols (`pp.oneOf "+ - * /"` in `parser.py`) form the
  closed enumeration `OpSym`.
* Python exceptions become `Except Err`; `Err` distinguishes `KeyError`
  (namespace lookup misses), `ZeroDivisionError`, failed `assert`
  (`AssertionError`), `CompylationError` (no `value_expression` rule) and
  recursion overflow.
* Recursive evaluation and specialization are total via a fuel parameter
  that decreases on every recursive call; fuel 0 yields the overflow error.
  Any terminating Python run is reproduced by every sufficiently large fuel;
  claims about concrete programs use an explicit sufficient fuel.
* Runtime values: Python's `int` arithmetic on the `PyInteger` subclass
  returns plain `int`, so plain ints (`Value.int`) and `PyInteger`s
  (`Value.pyint`) are distinguished — plain-int true division produces a
  `float` (modelled opaquely by `Value.float`, which never occurs in the
  concrete programs below), while `PyInteger / PyInteger` produces an exact
  `fractions.Fraction` (`Value.frac`).
* A `Transpylation`'s generated source text composes child sources by plain
  concatenation; for operator nodes whose children are literals or
  references — the only shape evaluated in the theorems below — executing
  that source is exactly the recursive evaluation modelled by `evalE`.
-/

deriving instance DecidableEq for Except

/-- The four binary operator symbols admitted by the grammar
(`pp.oneOf "+ - * /"` in `parser.py`). -/
inductive OpSym where
  | add
  | sub
  | mul
  | div
deriving DecidableEq

/-- The sealed expression variants: `Integer` and `Fraction` (`numbers.py`),
`Reference` (`variables.py`) and `OperatorBinary` (`operators.py`). -/
inductive Expression where
  | Integer (value : ℤ)
  | Fraction (numerator denominator : ℤ)
  | Reference (identifier : String)
  | OperatorBinary (symbol : OpSym) (lhs rhs : Expression)
deriving DecidableEq

/-- The synthetic runtime constants carried in a node's `bound` map:
the `PyInteger` and `PyFraction` classes. -/
inductive PyConst where
  | pyIntegerClass
  | pyFractionClass
deriving DecidableEq

/-- `names.free` of each node: `Reference.names` gives `{identifier}`,
the literal class attributes give the empty set, and
`CompoundExpression.names` unions the children's free sets. -/
def freeNames : Expression → Finset String
  | .Integer _ => ∅
  | .Fraction _ _ => ∅
  | .Reference id => {id}
  | .OperatorBinary _ l r => freeNames l ∪ freeNames r

/-- `names.bound` of each node as an association list with first-match
lookup: `Integer.names` carries `{"__PyInteger__": PyInteger}`,
`Fraction.names` carries `{"__PyFraction__": PyFraction}`, `Reference`
carries nothing, and `CompoundExpression.names` merges the children's
maps with `ChainMap` (left map takes precedence, i.e. list append). -/
def boundList : Expression → List (String × PyConst)
  | .Integer _ => [("__PyInteger__", .pyIntegerClass)]
  | .Fraction _ _ => [("__PyFraction__", .pyFractionClass)]
  | .Reference _ => []
  | .OperatorBinary _ l r => boundList l ++ boundList r

/-- The key set of a node's `bound` map. -/
def boundKeys (e : Expression) : List String := (boundList e).map Prod.fst

/-- The interpreter namespace: identifier to expression, as built by
`eval_assign`'s `{**namespace, instruction.name: expression}` (newest
binding first, first-match lookup). -/
abbrev NS := List (String × Expression)

/-- Python dict lookup `namespace[identifier]` (first match wins). -/
def lookupNS : NS → String → Option Expression
  | [], _ => none
  | (k, v) :: rest, id => if k = id then some v else lookupNS rest id

/-- The key view of a namespace (`namespace.keys()`). -/
def nsKeys (ns : NS) : List String := ns.map Prod.fst

/-- `set.isdisjoint`: no element of `xs` occurs in `ys`. -/
def listDisjoint (xs ys : List String) : Bool :=
  xs.all fun x => !(ys.contains x)

/-- Runtime values flowing through evaluation. `int` is a plain Python
`int` (what `int` arithmetic on the `PyInteger` subclass returns),
`pyint` is a `PyInteger` (produced by `Integer.evaluate`), `frac` is a
`fractions.Fraction` (always stored normalised, exactly like `ℚ`), and
`float` opaquely marks a Python float — its numeric value is not modelled
because no claim below ever produces one. -/
inductive Value where
  | int (n : ℤ)
  | pyint (n : ℤ)
  | frac (q : ℚ)
  | float
deriving DecidableEq

/-- The Python exceptions the core can raise. `recursionOverflow` stands
for exhaustion of the model's fuel (Python's `RecursionError`); like every
error other than `keyError` it is never caught by the interpreter loop. -/
inductive Err where
  | keyError (key : String)
  | zeroDiv
  | assertFailed
  | compylationFailed
  | recursionOverflow
deriving DecidableEq

/-- Integer result of `+`, `-`, `*` on two Python ints (the `.div` row is
dead: `applyOp` handles division separately). -/
def arithZ : OpSym → ℤ → ℤ → ℤ
  | .add, a, b => a + b
  | .sub, a, b => a - b
  | .mul, a, b => a * b
  | .div, _, _ => 0

/-- Exact `fractions.Fraction` result of `+`, `-`, `*` on rationals. -/
def arithQ : OpSym → ℚ → ℚ → ℚ
  | .add, a, b => a + b
  | .sub, a, b => a - b
  | .mul, a, b => a * b
  | .div, _, _ => 0

/-- One Python binary operation on runtime values, following Python's
dispatch:

* `PyInteger / PyInteger` runs `PyInteger.__truediv__` (`numbers.py`):
  an exact `Fraction`, or `ZeroDivisionError` on a zero divisor;
* every other int-like `/` int-like falls back to `int.__truediv__`
  (`PyInteger` defines no `__rtruediv__`): `ZeroDivisionError` on a zero
  divisor, otherwise a float;
* `Fraction` mixed with int-likes divides exactly, raising
  `ZeroDivisionError` on a zero divisor;
* `+`, `-`, `*` on int-likes return a plain `int` (int-subclass
  arithmetic returns the base type); mixed with `Fraction` they are exact;
* operations touching a float yield a float (a `0.0` float divisor would
  raise `ZeroDivisionError`; the float's value is not modelled, and no
  theorem below evaluates such an operand). -/
def applyOp (v₁ : Value) (s : OpSym) (v₂ : Value) : Except Err Value :=
  match s, v₁, v₂ with
  | .div, .pyint a, .pyint b =>
      if b = 0 then .error .zeroDiv else .ok (.frac ((a : ℚ) / (b : ℚ)))
  | .div, .int _, .int b => if b = 0 then .error .zeroDiv else .ok .float
  | .div, .int _, .pyint b => if b = 0 then .error .zeroDiv else .ok .float
  | .div, .pyint _, .int b => if b = 0 then .error .zeroDiv else .ok .float
  | .div, .frac a, .int b =>
      if b = 0 then .error .zeroDiv else .ok (.frac (a / (b : ℚ)))
  | .div, .frac a, .pyint b =>
      if b = 0 then .error .zeroDiv else .ok (.frac (a / (b : ℚ)))
  | .div, .int a, .frac b =>
      if b = 0 then .error .zeroDiv else .ok (.frac ((a : ℚ) / b))
  | .div, .pyint a, .frac b =>
      if b = 0 then .error .zeroDiv else .ok (.frac ((a : ℚ) / b))
  | .div, .frac a, .frac b =>
      if b = 0 then .error .zeroDiv else .ok (.frac (a / b))
  | .div, .float, .int b => if b = 0 then .error .zeroDiv else .ok .float
  | .div, .float, .pyint b => if b = 0 then .error .zeroDiv else .ok .float
  | .div, .float, .frac b => if b = 0 then .error .zeroDiv else .ok .float
  | .div, _, .float => .ok .float
  | s, .int a, .int b => .ok (.int (arithZ s a b))
  | s, .int a, .pyint b => .ok (.int (arithZ s a b))
  | s, .pyint a, .int b => .ok (.int (arithZ s a b))
  | s, .pyint a, .pyint b => .ok (.int (arithZ s a b))
  | s, .frac a, .int b => .ok (.frac (arithQ s a (b : ℚ)))
  | s, .frac a, .pyint b => .ok (.frac (arithQ s a (b : ℚ)))
  | s, .int a, .frac b => .ok (.frac (arithQ s (a : ℚ) b))
  | s, .pyint a, .frac b => .ok (.frac (arithQ s (a : ℚ) b))
  | s, .frac a, .frac b => .ok (.frac (arithQ s a b))
  | _, .float, _ => .ok .float
  | _, _, .float => .ok .float

/-- Recursive evaluation of an expression against a namespace — the
semantics of `Expression.evaluate` / `Transpylation.evaluate`:

* `Integer.evaluate` and `Fraction.evaluate` are overridden in
  `numbers.py` and construct the runtime value directly (no compiled
  artifact, no assertion); `PyFraction(a, 0)` raises `ZeroDivisionError`;
* a `Reference`'s generated code `__namespace__[id].evaluate(__namespace__)`
  looks the identifier up at execution time (raising `KeyError` when it is
  absent) and evaluates the bound expression recursively;
* an `OperatorBinary` evaluated as a fresh top-level call (`top = true`,
  i.e. through `Transpylation.evaluate`) first runs the assertion
  `parent.names.bound.keys().isdisjoint(namespace)`; its children's
  inlined code (`top = false`, part of the same compiled source) carries
  no assertion of its own; children evaluate left to right, and the
  symbol is applied to the two values.

Fuel decreases on every recursive call; fuel 0 raises the overflow
error. -/
def evalE : ℕ → Bool → NS → Expression → Except Err Value
  | 0, _, _, _ => .error .recursionOverflow
  | _ + 1, _, _, .Integer n => .ok (.pyint n)
  | _ + 1, _, _, .Fraction a b =>
      if b = 0 then .error .zeroDiv else .ok (.frac ((a : ℚ) / (b : ℚ)))
  | fuel + 1, _, ns, .Reference id =>
      match lookupNS ns id with
      | none => .error (.keyError id)
      | some e => evalE fuel true ns e
  | fuel + 1, top, ns, .OperatorBinary s l r =>
      if top && !(listDisjoint (boundKeys (.OperatorBinary s l r)) (nsKeys ns)) then
        .error .assertFailed
      else
        match evalE fuel false ns l with
        | .error err => .error err
        | .ok v₁ =>
          match evalE fuel false ns r with
          | .error err => .error err
          | .ok v₂ => applyOp v₁ s v₂

/-- Membership of the `VALUE_TYPES` registry (`variables.py`), populated
by `numbers.py` with exactly `Integer` and `Fraction`. -/
def isValue : Expression → Bool
  | .Integer _ => true
  | .Fraction _ _ => true
  | _ => false

/-- The `value_expression` singledispatch registry (`variables.py`,
rules registered in `numbers.py`): a plain `int` or a `PyInteger` (an
`int` subclass, so the `int` rule applies) becomes an `Integer` literal; a
`fractions.Fraction` becomes a `Fraction` literal from its (normalised)
numerator and denominator; any other value — e.g. a float — raises
`CompylationError`. -/
def value_expression : Value → Except Err Expression
  | .int n => .ok (.Integer n)
  | .pyint n => .ok (.Integer n)
  | .frac q => .ok (.Fraction q.num q.den)
  | .float => .error .compylationFailed

/-- `specialize` of each variant:

* `Integer.specialize` / `Fraction.specialize` return `self`;
* `Reference.specialize` returns `self` when the identifier is unbound,
  and otherwise re-specializes the bound expression
  (`replacement.specialize(namespace)`);
* `OperatorBinary.specialize` specializes both children (left first),
  and when both results are in `VALUE_TYPES` folds the node: it evaluates
  the rebuilt node against the namespace and re-lifts the value through
  `value_expression`; otherwise it returns the rebuilt `OperatorBinary`
  over the specialized children with the same symbol.

Fuel decreases on every recursive call (the reference chain through the
namespace is the source of potential divergence in the Python code). -/
def specialize : ℕ → NS → Expression → Except Err Expression
  | 0, _, _ => .error .recursionOverflow
  | _ + 1, _, .Integer n => .ok (.Integer n)
  | _ + 1, _, .Fraction a b => .ok (.Fraction a b)
  | fuel + 1, ns, .Reference id =>
      match lookupNS ns id with
      | none => .ok (.Reference id)
      | some repl => specialize fuel ns repl
  | fuel + 1, ns, .OperatorBinary s l r =>
      match specialize fuel ns l with
      | .error err => .error err
      | .ok l' =>
        match specialize fuel ns r with
        | .error err => .error err
        | .ok r' =>
          if isValue l' && isValue r' then
            match evalE fuel true ns (.OperatorBinary s l' r') with
            | .error err => .error err
            | .ok v => value_expression v
          else .ok (.OperatorBinary s l' r')

/-- The two instruction kinds of `interpret.py`. -/
inductive Instruction where
  | Assign (name : String) (expression : Expression)
  | Evaluate (expression : Expression)

/-- `eval_assign`: specialize the expression against the EMPTY dict
(`instruction.expression.specialize({})` — constant folding only) and
produce the next namespace `{**namespace, name: expression}`. -/
def eval_assign (fuel : ℕ) (ns : NS) (name : String) (e : Expression) :
    Except Err NS :=
  match specialize fuel [] e with
  | .error err => .error err
  | .ok e' => .ok ((name, e') :: ns)

/-- A single quote character, for Python `repr` of identifier strings. -/
def pyQuote : String := String.singleton (Char.ofNat 39)

/-- The diagnostic string `eval_evaluate` builds from a caught `KeyError`:
`f"NameError: name {key!r} is not defined"` (Python `repr` of a plain
identifier wraps it in single quotes). -/
def nameErrorMsg (key : String) : String :=
  "NameError: name " ++ pyQuote ++ key ++ pyQuote ++ " is not defined"

/-- One item of the interpreter's result stream: a runtime value, or the
diagnostic string produced for a caught `KeyError`. -/
inductive EvalResult where
  | value (v : Value)
  | diag (msg : String)
deriving DecidableEq

/-- `eval_evaluate`: evaluate the instruction's expression against the
current namespace; a `KeyError` (and only a `KeyError`) is caught and
converted into the diagnostic result; every other exception propagates. -/
def eval_evaluate (fuel : ℕ) (ns : NS) (e : Expression) :
    Except Err EvalResult :=
  match evalE fuel true ns e with
  | .ok v => .ok (.value v)
  | .error (.keyError key) => .ok (.diag (nameErrorMsg key))
  | .error err => .error err

/-- The interpreter loop (`eval` in `interpret.py`): starting from the
empty namespace, `Assign` replaces the namespace via `eval_assign` and
`Evaluate` yields one result via `eval_evaluate`. The output is the list
of yielded results together with the uncaught exception, if any, that
aborted the generator (instructions after the abort are never
processed). -/
def evalInstructions (fuel : ℕ) : List Instruction → NS →
    List EvalResult × Option Err
  | [], _ => ([], none)
  | .Assign name e :: rest, ns =>
      match eval_assign fuel ns name e with
      | .error err => ([], some err)
      | .ok ns' => evalInstructions fuel rest ns'
  | .Evaluate e :: rest, ns =>
      match eval_evaluate fuel ns e with
      | .error err => ([], some err)
      | .ok res =>
        match evalInstructions fuel rest ns with
        | (results, stop) => (res :: results, stop)

/-- The compiled artifact (`Transpylation`): the generated Python source
and the `_code` field, an `attr.ib(init=False, default=None)` that is
filled on first `evaluate` of this instance. -/
structure Transpylation where
  source : String
  code : Option Unit
deriving DecidableEq

/-- The generated Python source of each variant (`transpyle` methods):
literals construct their runtime value from the bound constant, a
reference defers the lookup to `__namespace__` at execution time, and an
operator node concatenates its children's sources around the symbol. -/
def transpyleSource : Expression → String
  | .Integer n => "__PyInteger__(" ++ toString n ++ ")"
  | .Fraction a b =>
      "__PyFraction__(" ++ toString a ++ ", " ++ toString b ++ ")"
  | .Reference id =>
      "__namespace__[" ++ pyQuote ++ id ++ pyQuote ++ "].evaluate(__namespace__)"
  | .OperatorBinary s l r =>
      transpyleSource l ++ " " ++
        (match s with
          | .add => "+"
          | .sub => "-"
          | .mul => "*"
          | .div => "/") ++ " " ++ transpyleSource r

/-- `Expression.transpyle`: every call constructs a NEW `Transpylation`
whose `_code` field starts out `None` (nothing caches the `Transpylation`
on the expression instance). -/
def transpyle (e : Expression) : Transpylation :=
  { source := transpyleSource e, code := none }

/-- The compile step at the head of `Transpylation.evaluate`: if this
instance's `_code` is `None`, compile the source (count 1) and store the
handle on this instance; otherwise reuse it (count 0). -/
def Transpylation.compileStep (t : Transpylation) : ℕ × Transpylation :=
  match t.code with
  | none => (1, { t with code := some () })
  | some _ => (0, t)

/-- How many compilations one call of `Expression.evaluate` triggers for
the instance's own artifact: `Integer.evaluate` and `Fraction.evaluate`
are overridden and never transpile; every other variant runs the default
`self.transpyle().evaluate(namespace)`, whose freshly constructed
`Transpylation` always compiles. (Compilations triggered inside nested
`__namespace__[...].evaluate(...)` calls belong to other instances.) -/
def evaluateCallCompiles : Expression → ℕ
  | .Integer _ => 0
  | .Fraction _ _ => 0
  | e => (transpyle e).compileStep.1

/-- The exact numeric value of a non-float runtime value (Python `==` on
ints and `Fraction`s compares exactly these rationals). -/
def valQ : Value → Option ℚ
  | .int n => some (n : ℚ)
  | .pyint n => some (n : ℚ)
  | .frac q => some q
  | .float => none

/-- The runtime value a literal expression evaluates to: `Integer.evaluate`
returns a `PyInteger`, `Fraction.evaluate` a `fractions.Fraction`
(undefined on a zero denominator, where construction raises); non-literals
have no direct value. -/
def literalVal : Expression → Option Value
  | .Integer n => some (.pyint n)
  | .Fraction a b => if b = 0 then none else some (.frac ((a : ℚ) / (b : ℚ)))
  | _ => none

/-- The exact numeric value of a literal expression. -/
def exprVal (e : Expression) : Option ℚ := (literalVal e).bind valQ

/-- No subterm of the expression is an operator node over two literal
children — i.e. `specialize` has nothing left to fold anywhere inside. -/
def Reduced : Expression → Prop
  | .OperatorBinary _ l r =>
      Reduced l ∧ Reduced r ∧ ¬(isValue l = true ∧ isValue r = true)
  | _ => True

/-- Height of an expression tree. -/
def depth : Expression → ℕ
  | .OperatorBinary _ l r => max (depth l) (depth r) + 1
  | _ => 1

theorem mem_boundKeys (e : Expression) :
    ∀ k ∈ boundKeys e, k = "__PyInteger__" ∨ k = "__PyFraction__" := by
  induction e with
  | Integer n => intro k hk; simp [boundKeys, boundList] at hk; exact Or.inl hk
  | Fraction a b => intro k hk; simp [boundKeys, boundList] at hk; exact Or.inr hk
  | Reference id => intro k hk; simp [boundKeys, boundList] at hk
  | OperatorBinary s l r ihl ihr =>
    intro k hk
    simp only [boundKeys, boundList, List.map_append, List.mem_append] at hk
    rcases hk with hk | hk
    · exact ihl k hk
    · exact ihr k hk

theorem boundKeys_disjoint (e : Expression) (ns : NS)
    (hns : ∀ k ∈ nsKeys ns, k.front.isAlpha = true) :
    listDisjoint (boundKeys e) (nsKeys ns) = true := by
  rw [listDisjoint, List.all_eq_true]
  intro k hk
  suffices h : ¬ (nsKeys ns).contains k = true by simpa using h
  intro hcon
  have hmem : k ∈ nsKeys ns := by simpa using hcon
  have halpha := hns k hmem
  rcases mem_boundKeys e k hk with rfl | rfl <;> exact absurd halpha (by decide)

theorem applyOp_ne_assertFailed (v₁ : Value) (s : OpSym) (v₂ : Value) :
    applyOp v₁ s v₂ ≠ .error .assertFailed := by
  cases s <;> cases v₁ <;> cases v₂ <;> simp [applyOp] <;> split <;> simp

theorem evalE_ne_assertFailed (ns : NS)
    (hns : ∀ k ∈ nsKeys ns, k.front.isAlpha = true) :
    ∀ (fuel : ℕ) (top : Bool) (e : Expression),
      evalE fuel top ns e ≠ .error .assertFailed := by
  intro fuel
  induction fuel with
  | zero => intro top e; simp [evalE]
  | succ f ih =>
    intro top e
    cases e with
    | Integer n => simp [evalE]
    | Fraction a b =>
      simp only [evalE]
      split <;> simp
    | Reference id =>
      simp only [evalE]
      cases h : lookupNS ns id with
      | none => simp
      | some e' => exact ih true e'
    | OperatorBinary s l r =>
      have hdis := boundKeys_disjoint (.OperatorBinary s l r) ns hns
      simp only [evalE, hdis, Bool.not_true, Bool.and_false, if_neg, Bool.false_eq_true,
        not_false_iff, if_false]
      cases hl : evalE f false ns l with
      | error err =>
        intro hcon
        exact ih false l (hl.trans (by injection hcon with h; rw [h]))
      | ok v₁ =>
        cases hr : evalE f false ns r with
        | error err =>
          intro hcon
          exact ih false r (hr.trans (by injection hcon with h; rw [h]))
        | ok v₂ => exact applyOp_ne_assertFailed v₁ s v₂

/-- C9: for every expression whose reference identifiers are parser-shaped
(beginning with a letter, as the grammar's `IDENTIFIER = Word(alphas, ...)`
guarantees) and every execution namespace keyed by such identifiers, the
disjointness check between the node's bound constant keys and the namespace
keys holds, and the assertion branch of artifact execution
(`assert self.parent.names.bound.keys().isdisjoint(namespace)`) is
unreachable: evaluation never raises the assertion failure. (The bound
keys are always the underscore-initial internal constants, so the check
depends only on the namespace precondition.) -/
theorem C9_assert_unreachable (e : Expression) (ns : NS)
    (_hrefs : ∀ id ∈ freeNames e, id.front.isAlpha = true)
    (hns : ∀ k ∈ nsKeys ns, k.front.isAlpha = true) :
    listDisjoint (boundKeys e) (nsKeys ns) = true ∧
    ∀ (fuel : ℕ) (top : Bool), evalE fuel top ns e ≠ .error .assertFailed :=
  ⟨boundKeys_disjoint e ns hns, fun fuel top => evalE_ne_assertFailed ns hns fuel top e⟩

/-- Witness for C9 at a concrete expression and namespace. -/
theorem C9_assert_unreachable_witness :
    listDisjoint (boundKeys (.OperatorBinary .add (.Reference "a") (.Integer 2)))
      (nsKeys [("a", .Integer 40)]) = true :=
  (C9_assert_unreachable (.OperatorBinary .add (.Reference "a") (.Integer 2))
    [("a", .Integer 40)] (by decide) (by decide)).1

/-- C8 is false as universally stated: the free set and the bound key set
of a node need not be disjoint, because nothing in the expression layer
stops a `Reference` from using an internal constant name. For the node
`Reference("__PyInteger__") + Integer(1)`, the identifier
`__PyInteger__` is both free and a bound key. -/
theorem C8_counterexample :
    "__PyInteger__" ∈
      freeNames (.OperatorBinary .add (.Reference "__PyInteger__") (.Integer 1)) ∧
    "__PyInteger__" ∈
      boundKeys (.OperatorBinary .add (.Reference "__PyInteger__") (.Integer 1)) := by
  decide

/-- C8 (amended): `names()` has the claimed structure on every variant —
a `Reference` has `free = {identifier}` and empty `bound`; a literal has
empty `free` and a bound map carrying its single synthetic constant; an
operator node unions its children's free sets and merges their bound maps
— and `free` is disjoint from the bound keys PROVIDED every reference
identifier begins with a letter (the shape the external grammar
guarantees), since bound keys all begin with an underscore. -/
theorem C8_names_structure :
    (∀ id, freeNames (.Reference id) = {id} ∧ boundList (.Reference id) = []) ∧
    (∀ n, freeNames (.Integer n) = ∅ ∧
      boundList (.Integer n) = [("__PyInteger__", .pyIntegerClass)]) ∧
    (∀ a b, freeNames (.Fraction a b) = ∅ ∧
      boundList (.Fraction a b) = [("__PyFraction__", .pyFractionClass)]) ∧
    (∀ s l r, freeNames (.OperatorBinary s l r) = freeNames l ∪ freeNames r ∧
      boundList (.OperatorBinary s l r) = boundList l ++ boundList r) ∧
    (∀ e : Expression, (∀ id ∈ freeNames e, id.front.isAlpha = true) →
      ∀ k ∈ boundKeys e, k ∉ freeNames e) := by
  refine ⟨fun id => ⟨rfl, rfl⟩, fun n => ⟨rfl, rfl⟩, fun a b => ⟨rfl, rfl⟩,
    fun s l r => ⟨rfl, rfl⟩, ?_⟩
  intro e halpha k hk hmem
  have := halpha k hmem
  rcases mem_boundKeys e k hk with rfl | rfl <;> exact absurd this (by decide)

/-- Witness for C8 (amended) at a concrete parser-shaped node. -/
theorem C8_names_structure_witness :
    "__PyInteger__" ∉ freeNames (.OperatorBinary .add (.Reference "x") (.Integer 1)) :=
  C8_names_structure.2.2.2.2 (.OperatorBinary .add (.Reference "x") (.Integer 1))
    (by decide) "__PyInteger__" (by decide)

/-- C1 is false as stated: `eval_assign` does NOT specialize the assigned
expression against the loop's current namespace. With the current
namespace binding `a := 1`, assigning `b := a` stores the unchanged
`Reference("a")` (because `eval_assign` calls `specialize({})`), while
specialization against the current namespace would have produced the
literal `1`. -/
theorem C1_counterexample :
    eval_assign 2 [("a", .Integer 1)] "b" (.Reference "a") =
      .ok [("b", .Reference "a"), ("a", .Integer 1)] ∧
    specialize 2 [("a", .Integer 1)] (.Reference "a") = .ok (.Integer 1) ∧
    Expression.Reference "a" ≠ .Integer 1 := by
  decide

/-- C1 (amended): on each `Assign`, `eval_assign` specializes the
expression against the EMPTY namespace — i.e. performs constant folding
only — and installs the result under the name in the next namespace value;
bindings already present in the current namespace are not substituted into
the stored expression (their resolution is deferred to evaluation time). -/
theorem C1_bind_time_folding (fuel : ℕ) (ns : NS) (name : String)
    (e e' : Expression) (h : specialize fuel [] e = .ok e') :
    eval_assign fuel ns name e = .ok ((name, e') :: ns) ∧
    lookupNS ((name, e') :: ns) name = some e' := by
  refine ⟨?_, by simp [lookupNS]⟩
  unfold eval_assign
  rw [h]

/-- Witness for C1 (amended): assigning `b := 30 + 10` under a nonempty
namespace folds the expression to `40` and installs it. -/
theorem C1_bind_time_folding_witness :
    eval_assign 3 [("c", .Integer 7)] "b"
      (.OperatorBinary .add (.Integer 30) (.Integer 10)) =
      .ok [("b", .Integer 40), ("c", .Integer 7)] ∧
    lookupNS [("b", .Integer 40), ("c", .Integer 7)] "b" = some (.Integer 40) :=
  C1_bind_time_folding 3 [("c", .Integer 7)] "b"
    (.OperatorBinary .add (.Integer 30) (.Integer 10)) (.Integer 40) (by decide)

/-- C2 fails on the code: the `_code` cache lives on a `Transpylation`
instance, but the default `Expression.evaluate` constructs a FRESH
`Transpylation` (with `_code = None`) on every call, so each `evaluate`
call on the same expression instance compiles again — two calls compile
twice, not once. The per-`Transpylation` cache itself does work: a second
`evaluate` on the same `Transpylation` instance would not recompile. -/
theorem C2_recompiles_each_call :
    (transpyle (.OperatorBinary .add (.Integer 1) (.Integer 2))).code = none ∧
    evaluateCallCompiles (.OperatorBinary .add (.Integer 1) (.Integer 2)) = 1 ∧
    evaluateCallCompiles (.OperatorBinary .add (.Integer 1) (.Integer 2)) +
      evaluateCallCompiles (.OperatorBinary .add (.Integer 1) (.Integer 2)) = 2 ∧
    ((transpyle (.OperatorBinary .add (.Integer 1) (.Integer 2))).compileStep.2).compileStep.1
      = 0 := by
  decide

/-- C7: the stream `b := a + 2; a := 30 + 10; >>> b + a` yields exactly
one result, the whole number 82, with no uncaught exception; the second
conjunct shows the expression stored for `b` keeps the still-free
reference to `a` (resolved against the namespace only at execution
time). -/
theorem C7_end_to_end :
    evalInstructions 5
      [.Assign "b" (.OperatorBinary .add (.Reference "a") (.Integer 2)),
       .Assign "a" (.OperatorBinary .add (.Integer 30) (.Integer 10)),
       .Evaluate (.OperatorBinary .add (.Reference "b") (.Reference "a"))] [] =
      ([.value (.int 82)], none) ∧
    eval_assign 5 [] "b" (.OperatorBinary .add (.Reference "a") (.Integer 2)) =
      .ok [("b", .OperatorBinary .add (.Reference "a") (.Integer 2))] := by
  decide

/-- C6 is false as universally stated: an `Evaluate` whose expression
references a never-bound identifier does not always yield a diagnostic —
if evaluation hits a different exception first, that exception propagates.
Here `>>> (1 / 0) + c` references the unbound `c`, yet the run aborts with
`ZeroDivisionError`: no diagnostic result, and the following instruction
is never processed. -/
theorem C6_counterexample :
    "c" ∈ freeNames (.OperatorBinary .add
      (.OperatorBinary .div (.Integer 1) (.Integer 0)) (.Reference "c")) ∧
    lookupNS [] "c" = none ∧
    evalInstructions 3
      [.Evaluate (.OperatorBinary .add
        (.OperatorBinary .div (.Integer 1) (.Integer 0)) (.Reference "c")),
       .Evaluate (.Integer 5)] [] = ([], some .zeroDiv) := by
  decide

/-- C6 (amended): when evaluating an `Evaluate` instruction's expression
fails with an unresolved-reference lookup (`KeyError`), the loop yields
the diagnostic result for that one instruction and the remaining
instructions are processed exactly as they would be on their own (same
results, same final outcome); in particular evaluating a bare reference
to an unbound identifier always fails with that `KeyError`. (An
exception other than `KeyError` raised earlier in the same evaluation
instead propagates, per C10.) -/
theorem C6_keyerror_recovery (fuel : ℕ) (ns : NS) (e : Expression)
    (rest : List Instruction) (k : String)
    (h : evalE fuel true ns e = .error (.keyError k)) :
    evalInstructions fuel (.Evaluate e :: rest) ns =
      ((.diag (nameErrorMsg k)) :: (evalInstructions fuel rest ns).1,
        (evalInstructions fuel rest ns).2) ∧
    (∀ (f : ℕ) (id : String), lookupNS ns id = none →
      evalE (f + 1) true ns (.Reference id) = .error (.keyError id)) := by
  constructor
  · cases hrest : evalInstructions fuel rest ns with
    | mk results stop => simp [evalInstructions, eval_evaluate, h, hrest]
  · intro f id hid
    simp [evalE, hid]

/-- Witness for C6 (amended): `>>> x` with `x` unbound yields the
diagnostic and the following instruction still runs. -/
theorem C6_keyerror_recovery_witness :
    evalInstructions 1 [.Evaluate (.Reference "x"), .Evaluate (.Integer 5)] [] =
      ((.diag (nameErrorMsg "x")) ::
        (evalInstructions 1 [.Evaluate (.Integer 5)] []).1,
        (evalInstructions 1 [.Evaluate (.Integer 5)] []).2) :=
  (C6_keyerror_recovery 1 [] (.Reference "x") [.Evaluate (.Integer 5)] "x"
    (by decide)).1

/-- C10: only `KeyError` is converted into a diagnostic result — any other
exception raised while evaluating an `Evaluate` instruction (in particular
`ZeroDivisionError` from `1 / 0` or from a rational literal with a zero
denominator) propagates out of the loop, so no result is produced for that
instruction and the remaining instructions are never processed. -/
theorem C10_zerodiv_propagates (fuel : ℕ) (ns : NS) (e : Expression)
    (rest : List Instruction) :
    (∀ err : Err, evalE fuel true ns e = .error err →
      (∀ k, err ≠ .keyError k) →
      evalInstructions fuel (.Evaluate e :: rest) ns = ([], some err)) ∧
    evalE 3 true [] (.OperatorBinary .div (.Integer 1) (.Integer 0)) =
      .error .zeroDiv ∧
    evalE 1 true [] (.Fraction 1 0) = .error .zeroDiv := by
  refine ⟨?_, by decide, by decide⟩
  intro err h hk
  have heval : eval_evaluate fuel ns e = .error err := by
    unfold eval_evaluate
    rw [h]
    cases err with
    | keyError k => exact absurd rfl (hk k)
    | zeroDiv => rfl
    | assertFailed => rfl
    | compylationFailed => rfl
    | recursionOverflow => rfl
  simp [evalInstructions, heval]

/-- Witness for C10: `>>> 1 / 0` aborts the whole stream with
`ZeroDivisionError`; the next instruction produces no result. -/
theorem C10_zerodiv_propagates_witness :
    evalInstructions 3
      [.Evaluate (.OperatorBinary .div (.Integer 1) (.Integer 0)),
       .Evaluate (.Integer 5)] [] = ([], some .zeroDiv) :=
  (C10_zerodiv_propagates 3 [] (.OperatorBinary .div (.Integer 1) (.Integer 0))
    [.Evaluate (.Integer 5)]).1 .zeroDiv (by decide) (fun _ h => Err.noConfusion h)

/-- C5: division of two `PyInteger` values is exact — the result is the
exact rational `a / b`, never an approximation, and when `b` divides `a`
that rational is a whole number (denominator 1). Folding `3 / 4` yields
the exact rational literal `3 : 4`, folding `3 * 4` yields the whole
number 12, folding `3 - 4` yields -1, and direct evaluation of the same
three operator expressions agrees. -/
theorem C5_division_exact :
    (∀ a b : ℤ, b ≠ 0 →
      applyOp (.pyint a) .div (.pyint b) = .ok (.frac ((a : ℚ) / (b : ℚ))) ∧
      (b ∣ a → ((a : ℚ) / (b : ℚ)).den = 1)) ∧
    specialize 3 [] (.OperatorBinary .div (.Integer 3) (.Integer 4)) =
      .ok (.Fraction 3 4) ∧
    exprVal (.Fraction 3 4) = some (3 / 4 : ℚ) ∧
    specialize 3 [] (.OperatorBinary .mul (.Integer 3) (.Integer 4)) =
      .ok (.Integer 12) ∧
    specialize 3 [] (.OperatorBinary .sub (.Integer 3) (.Integer 4)) =
      .ok (.Integer (-1)) ∧
    evalE 3 true [] (.OperatorBinary .div (.Integer 3) (.Integer 4)) =
      .ok (.frac (3 / 4 : ℚ)) ∧
    evalE 3 true [] (.OperatorBinary .mul (.Integer 3) (.Integer 4)) =
      .ok (.int 12) ∧
    evalE 3 true [] (.OperatorBinary .sub (.Integer 3) (.Integer 4)) =
      .ok (.int (-1)) := by
  refine ⟨?_,
    by norm_num [specialize, evalE, applyOp, value_expression, isValue,
      boundKeys, boundList, nsKeys, listDisjoint],
    by norm_num [exprVal, literalVal, valQ],
    by decide, by decide, by rfl, by decide, by decide⟩
  intro a b hb
  refine ⟨by simp [applyOp, hb], ?_⟩
  rintro ⟨k, rfl⟩
  have hbq : (b : ℚ) ≠ 0 := Int.cast_ne_zero.mpr hb
  rw [Int.cast_mul, mul_div_cancel_left₀ _ hbq]
  exact Rat.den_intCast k

/-- Witness for C5 at `6 / 3`: the exact rational 2, a whole number. -/
theorem C5_division_exact_witness :
    applyOp (.pyint 6) .div (.pyint 3) = .ok (.frac ((6 : ℚ) / (3 : ℚ))) ∧
    ((3 : ℤ) ∣ 6 → ((6 : ℚ) / (3 : ℚ)).den = 1) :=
  C5_division_exact.1 6 3 (by decide)

theorem specialize_ok_invariants (ns : NS) :
    ∀ (fuel : ℕ) (e r : Expression), specialize fuel ns e = .ok r →
      (∀ id ∈ freeNames r, lookupNS ns id = none) ∧ Reduced r ∧ depth r ≤ fuel := by
  intro fuel
  induction fuel with
  | zero => intro e r h; simp [specialize] at h
  | succ f ih =>
    intro e r h
    cases e with
    | Integer n =>
      simp only [specialize, Except.ok.injEq] at h
      subst h
      exact ⟨fun id hid => by simp [freeNames] at hid, trivial, by simp [depth]⟩
    | Fraction a b =>
      simp only [specialize, Except.ok.injEq] at h
      subst h
      exact ⟨fun id hid => by simp [freeNames] at hid, trivial, by simp [depth]⟩
    | Reference id =>
      simp only [specialize] at h
      cases hlook : lookupNS ns id with
      | none =>
        rw [hlook] at h
        simp only [Except.ok.injEq] at h
        subst h
        refine ⟨fun id' hid' => ?_, trivial, by simp [depth]⟩
        simp only [freeNames, Finset.mem_singleton] at hid'
        subst hid'
        exact hlook
      | some repl =>
        rw [hlook] at h
        obtain ⟨h1, h2, h3⟩ := ih repl r h
        exact ⟨h1, h2, h3.trans (Nat.le_succ f)⟩
    | OperatorBinary s l rr =>
      simp only [specialize] at h
      cases hl : specialize f ns l with
      | error err => rw [hl] at h; simp at h
      | ok l' =>
        cases hr : specialize f ns rr with
        | error err => rw [hl, hr] at h; simp at h
        | ok r' =>
          rw [hl, hr] at h
          dsimp only at h
          obtain ⟨fl, rl, dl⟩ := ih l l' hl
          obtain ⟨fr, rrr, dr⟩ := ih rr r' hr
          by_cases hv : (isValue l' && isValue r') = true
          · rw [if_pos hv] at h
            cases hev : evalE f true ns (.OperatorBinary s l' r') with
            | error err => rw [hev] at h; simp at h
            | ok v =>
              rw [hev] at h
              cases v with
              | int n =>
                simp only [value_expression, Except.ok.injEq] at h
                subst h
                exact ⟨fun id hid => by simp [freeNames] at hid, trivial, by simp [depth]⟩
              | pyint n =>
                simp only [value_expression, Except.ok.injEq] at h
                subst h
                exact ⟨fun id hid => by simp [freeNames] at hid, trivial, by simp [depth]⟩
              | frac q =>
                simp only [value_expression, Except.ok.injEq] at h
                subst h
                exact ⟨fun id hid => by simp [freeNames] at hid, trivial, by simp [depth]⟩
              | float => simp [value_expression] at h
          · rw [if_neg hv] at h
            simp only [Except.ok.injEq] at h
            subst h
            refine ⟨?_, ⟨rl, rrr, ?_⟩, ?_⟩
            · intro id hid
              simp only [freeNames, Finset.mem_union] at hid
              rcases hid with hid | hid
              · exact fl id hid
              · exact fr id hid
            · rintro ⟨h1, h2⟩
              exact hv (by rw [h1, h2]; rfl)
            · simp only [depth]
              omega

theorem specialize_fixpoint (ns : NS) :
    ∀ (fuel : ℕ) (r : Expression),
      (∀ id ∈ freeNames r, lookupNS ns id = none) → Reduced r →
      depth r ≤ fuel → specialize fuel ns r = .ok r := by
  intro fuel
  induction fuel with
  | zero =>
    intro r h1 h2 h3
    cases r <;> simp [depth] at h3
  | succ f ih =>
    intro r h1 h2 h3
    cases r with
    | Integer n => simp [specialize]
    | Fraction a b => simp [specialize]
    | Reference id =>
      have hlook := h1 id (by simp [freeNames])
      simp [specialize, hlook]
    | OperatorBinary s l rr =>
      obtain ⟨rl, rrr, hnv⟩ := h2
      have hdl : depth l ≤ f := by simp only [depth] at h3; omega
      have hdr : depth rr ≤ f := by simp only [depth] at h3; omega
      have hl := ih l
        (fun id hid => h1 id (by simp only [freeNames, Finset.mem_union]; exact Or.inl hid))
        rl hdl
      have hr := ih rr
        (fun id hid => h1 id (by simp only [freeNames, Finset.mem_union]; exact Or.inr hid))
        rrr hdr
      have hv : (isValue l && isValue rr) = false := by
        cases hil : isValue l <;> cases hir : isValue rr <;> simp_all
      simp only [specialize]
      rw [hl, hr]
      dsimp only
      rw [if_neg (by rw [hv]; exact Bool.false_ne_true)]

/-- C4: specialization is idempotent — whenever `specialize` terminates on
`e` against `ns` (no cyclic reference chain exhausts the fuel) with result
`r`, specializing `r` against the same namespace returns `r` again, i.e.
`specialize(specialize(e, ns), ns) == specialize(e, ns)`. -/
theorem C4_specialize_idempotent (fuel : ℕ) (ns : NS) (e r : Expression)
    (h : specialize fuel ns e = .ok r) :
    specialize fuel ns r = .ok r := by
  obtain ⟨h1, h2, h3⟩ := specialize_ok_invariants ns fuel e r h
  exact specialize_fixpoint ns fuel r h1 h2 h3

/-- Witness for C4: `a + 2` under `{a: 40}` specializes (and folds) to
`42`, which is a fixed point of the same specialization. -/
theorem C4_specialize_idempotent_witness :
    specialize 3 [("a", .Integer 40)] (.Integer 42) = .ok (.Integer 42) :=
  C4_specialize_idempotent 3 [("a", .Integer 40)]
    (.OperatorBinary .add (.Reference "a") (.Integer 2)) (.Integer 42) (by decide)

theorem evalE_of_isValue (ns : NS) (g : ℕ) (e : Expression) (w : Value)
    (hval : isValue e = true) (hev : evalE g false ns e = .ok w) :
    literalVal e = some w := by
  cases e with
  | Integer n =>
    cases g with
    | zero => simp [evalE] at hev
    | succ g' =>
      simp only [evalE, Except.ok.injEq] at hev
      rw [literalVal, hev]
  | Fraction a b =>
    cases g with
    | zero => simp [evalE] at hev
    | succ g' =>
      simp only [evalE] at hev
      rw [literalVal]
      split at hev
      · simp at hev
      · simp only [Except.ok.injEq] at hev
        rw [if_neg (by assumption), hev]
  | Reference id => simp [isValue] at hval
  | OperatorBinary s₂ a b => simp [isValue] at hval

/-- C3: for an `OperatorBinary` node whose two children specialize to
members of the closed literal set `VALUE_TYPES = {Integer, Fraction}`,
`specialize` folds: whenever it returns a result, that result is itself a
literal (never an `OperatorBinary`) whose exact value equals the direct
evaluation of the operator on the two literal values; and when at least
one specialized child is not a literal, no folding occurs — the result is
an `OperatorBinary` over the specialized children with the same symbol. -/
theorem C3_literal_folding (fuel : ℕ) (ns : NS) (s : OpSym) (l r l' r' : Expression)
    (hl : specialize fuel ns l = .ok l') (hr : specialize fuel ns r = .ok r') :
    (isValue l' = true → isValue r' = true →
      ∀ e' : Expression, specialize (fuel + 1) ns (.OperatorBinary s l r) = .ok e' →
        isValue e' = true ∧
        ∃ v₁ v₂ v, literalVal l' = some v₁ ∧ literalVal r' = some v₂ ∧
          applyOp v₁ s v₂ = .ok v ∧ exprVal e' = valQ v) ∧
    ((isValue l' = false ∨ isValue r' = false) →
      specialize (fuel + 1) ns (.OperatorBinary s l r) = .ok (.OperatorBinary s l' r')) := by
  constructor
  · intro hvl hvr e' he
    simp only [specialize] at he
    rw [hl, hr] at he
    dsimp only at he
    rw [if_pos (by rw [hvl, hvr]; rfl)] at he
    cases hev : evalE fuel true ns (.OperatorBinary s l' r') with
    | error err => rw [hev] at he; simp at he
    | ok v =>
      rw [hev] at he
      obtain ⟨v₁, v₂, hv₁, hv₂, hop⟩ :
          ∃ v₁ v₂, literalVal l' = some v₁ ∧ literalVal r' = some v₂ ∧
            applyOp v₁ s v₂ = .ok v := by
        cases fuel with
        | zero => simp [evalE] at hev
        | succ g =>
          simp only [evalE] at hev
          split at hev
          · simp at hev
          · cases hevl : evalE g false ns l' with
            | error err => rw [hevl] at hev; simp at hev
            | ok w₁ =>
              rw [hevl] at hev
              cases hevr : evalE g false ns r' with
              | error err => rw [hevr] at hev; simp at hev
              | ok w₂ =>
                rw [hevr] at hev
                exact ⟨w₁, w₂, evalE_of_isValue ns g l' w₁ hvl hevl,
                  evalE_of_isValue ns g r' w₂ hvr hevr, hev⟩
      cases v with
      | int n =>
        simp only [value_expression, Except.ok.injEq] at he
        subst he
        exact ⟨rfl, v₁, v₂, .int n, hv₁, hv₂, hop, by simp [exprVal, literalVal, valQ]⟩
      | pyint n =>
        simp only [value_expression, Except.ok.injEq] at he
        subst he
        exact ⟨rfl, v₁, v₂, .pyint n, hv₁, hv₂, hop, by simp [exprVal, literalVal, valQ]⟩
      | frac q =>
        simp only [value_expression, Except.ok.injEq] at he
        subst he
        refine ⟨rfl, v₁, v₂, .frac q, hv₁, hv₂, hop, ?_⟩
        have hden : (q.den : ℤ) ≠ 0 := Int.natCast_ne_zero.mpr q.den_nz
        simp only [exprVal, literalVal, if_neg hden, Option.some_bind, valQ]
        rw [Int.cast_natCast, Rat.num_div_den]
      | float => simp [value_expression] at he
  · intro hor
    simp only [specialize]
    rw [hl, hr]
    dsimp only
    have hv : (isValue l' && isValue r') = false := by
      rcases hor with h | h <;> simp [h]
    rw [if_neg (by rw [hv]; exact Bool.false_ne_true)]

/-- Witness for C3: folding `3 / 4` (both children already literal) gives
the literal `3 : 4`, whose exact value matches `PyInteger(3) /
PyInteger(4)`. -/
theorem C3_literal_folding_witness :
    isValue (.Fraction 3 4) = true ∧
    ∃ v₁ v₂ v, literalVal (.Integer 3) = some v₁ ∧ literalVal (.Integer 4) = some v₂ ∧
      applyOp v₁ .div v₂ = .ok v ∧ exprVal (.Fraction 3 4) = valQ v :=
  (C3_literal_folding 2 [] .div (.Integer 3) (.Integer 4) (.Integer 3) (.Integer 4)
    (by decide) (by decide)).1 rfl rfl (.Fraction 3 4)
    (by norm_num [specialize, evalE, applyOp, value_expression, isValue,
      boundKeys, boundList, nsKeys, listDisjoint])
